/-
Verification development for the proposer-commitment-network repository.

Each Rust function relevant to the checked claims is shallowly embedded as a
Lean definition over Nat / Int / List, with machine integers modelled as Nat
(overflow guards are made explicit where the source checks them).  External
effects (beacon/execution client calls, cryptographic primitives, the f64
pricing formula) are modelled as explicit oracle parameters or oracle fields;
everything else follows the Rust control flow line by line.
-/
import Mathlib

set_option maxRecDepth 10000

/-! ## Generic association-list helpers (model of HashMap get / insert) -/

/-- Lookup in an association list keyed by Nat (model of HashMap::get). -/
def assocGet {α : Type} (l : List (Nat × α)) (k : Nat) : Option α :=
  (l.find? (fun e => e.1 == k)).map (fun e => e.2)

/-- Insert into an association list keyed by Nat (model of HashMap::insert):
replaces the value when the key is present, otherwise appends the binding. -/
def assocInsert {α : Type} (l : List (Nat × α)) (k : Nat) (v : α) : List (Nat × α) :=
  if l.any (fun e => e.1 == k) then
    l.map (fun e => if e.1 == k then (k, v) else e)
  else
    l ++ [(k, v)]

/-! ## C8 — basefee projection (src/sidecar/src/utils/transactions.rs,
`calculate_max_basefee`)

Rust iterates `block_diff` times: it first checks
`max_basefee > u128::MAX / 1125` (overflow guard, returning `None`), then sets
`max_basefee = max_basefee * 1125 / 1000 + 1`.  After the guard the u128
arithmetic cannot wrap, so Nat arithmetic coincides with the source. -/

/-- The value of `u128::MAX`. -/
def u128_max : Nat := 2 ^ 128 - 1

/-- Model of `calculate_max_basefee(current, block_diff)`. -/
def calculate_max_basefee (current : Nat) : Nat → Option Nat
  | 0 => some current
  | n + 1 =>
    if u128_max / 1125 < current then none
    else calculate_max_basefee (current * 1125 / 1000 + 1) n

theorem basefee_step_lt (x : Nat) : x < x * 1125 / 1000 + 1 := by
  have h1 : x * 1000 ≤ x * 1125 := by omega
  have h2 : x ≤ x * 1125 / 1000 :=
    (Nat.le_div_iff_mul_le (by norm_num)).mpr h1
  omega

/-- C8: the basefee projection is strictly monotone in the slot distance: if
`calculate_max_basefee bf (n+1)` is defined (no overflow) then
`calculate_max_basefee bf n` is defined as well and is strictly smaller. -/
theorem calculate_max_basefee_strict_mono (n bf y : Nat)
    (h : calculate_max_basefee bf (n + 1) = some y) :
    ∃ x, calculate_max_basefee bf n = some x ∧ x < y := by
  induction n generalizing bf with
  | zero =>
    simp only [calculate_max_basefee] at h
    by_cases hg : u128_max / 1125 < bf
    · simp [hg] at h
    · simp [hg] at h
      exact ⟨bf, rfl, h ▸ basefee_step_lt bf⟩
  | succ n ih =>
    simp only [calculate_max_basefee] at h ⊢
    by_cases hg : u128_max / 1125 < bf
    · simp [hg] at h
    · simp only [hg, if_false] at h ⊢
      exact ih _ h

/-- Witness for C8 at `bf = 1000`, `n = 0`. -/
theorem calculate_max_basefee_strict_mono_witness :
    ∃ x, calculate_max_basefee 1000 0 = some x ∧ x < 1126 :=
  calculate_max_basefee_strict_mono 0 1000 1126 (by decide)

/-! ## C9 — preconfirmation request digest
(src/sidecar/src/commitment/request.rs, `PreconfRequest::digest`)

The digest builds a byte vector starting from the 8-byte big-endian encoding
of the slot, then appends each transaction hash in order, and finally applies
keccak256.  keccak256 is an external cryptographic primitive, modelled as an
arbitrary function from byte lists. -/

/-- Model of one `Constraint` held by a `PreconfRequest`: the 32-byte hash of
its transaction, the transaction gas limit, and the (cryptographic) outcome of
`Constraint::validate`. -/
structure ConstraintM where
  txHashBytes : List Nat
  gasLimit : Nat
  validates : Bool
deriving DecidableEq

/-- Model of `PreconfRequest`. The ECDSA signature object itself is external;
signature recovery is passed as an oracle where it is needed. -/
structure PreconfRequestM where
  slot : Nat
  txs : List ConstraintM
  sender : Nat
  chainId : Nat
deriving DecidableEq

/-- Big-endian bytes of a u64 (`u64::to_be_bytes`). -/
def u64_be_bytes (n : Nat) : List Nat :=
  [n / 2 ^ 56 % 256, n / 2 ^ 48 % 256, n / 2 ^ 40 % 256, n / 2 ^ 32 % 256,
   n / 2 ^ 24 % 256, n / 2 ^ 16 % 256, n / 2 ^ 8 % 256, n % 256]

/-- Model of `PreconfRequest::digest`: start from the big-endian slot bytes and
extend with each transaction hash in request order, exactly as the Rust loop
does with `extend_from_slice`, then hash. -/
def preconf_digest (keccak256 : List Nat → Nat) (req : PreconfRequestM) : Nat :=
  keccak256 (req.txs.foldl (fun data tx => data ++ tx.txHashBytes) (u64_be_bytes req.slot))

theorem foldl_append_eq_join {α : Type} (f : α → List Nat) :
    ∀ (l : List α) (init : List Nat),
      l.foldl (fun data tx => data ++ f tx) init = init ++ (l.map f).flatten := by
  intro l
  induction l with
  | nil => intro init; simp
  | cons x xs ih =>
    intro init
    simp only [List.foldl_cons, List.map_cons, List.flatten_cons]
    rw [ih, List.append_assoc]

/-- C9: the digest of a preconfirmation request is keccak256 of the 8-byte
big-endian slot followed by the concatenation of the transaction hashes in
request order. -/
theorem preconf_digest_spec (keccak256 : List Nat → Nat) (req : PreconfRequestM) :
    preconf_digest keccak256 req =
      keccak256 (u64_be_bytes req.slot ++ (req.txs.map (fun tx => tx.txHashBytes)).flatten) := by
  unfold preconf_digest
  rw [foldl_append_eq_join]

/-! ## C10 — ScoreCache insertion and eviction
(src/sidecar/src/utils/score_cache.rs, `ScoreCache::insert` / `clear_stales`)

`clear_stales` runs `while len >= max_len { retain(score > i); i += 1 }`.
The loop need not terminate (with `max_len = 0` it never does), so it is
embedded with an explicit fuel counter: `none` means the fuel ran out while
the loop condition still held. -/

/-- Entries of a `ScoreCache`: key, value, and score. -/
structure ScoreCacheM (K V : Type) where
  entries : List (K × V × Int)
  maxLen : Nat

/-- One `retain` pass of `clear_stales`: keep entries whose score exceeds `i`. -/
def retainAbove {K V : Type} (i : Int) (l : List (K × V × Int)) : List (K × V × Int) :=
  l.filter (fun e => decide (i < e.2.2))

/-- Fuelled model of `ScoreCache::clear_stales`. -/
def clearStalesAux {K V : Type} (maxLen : Nat) :
    Nat → Int → List (K × V × Int) → Option (List (K × V × Int))
  | fuel, i, l =>
    if maxLen ≤ l.length then
      match fuel with
      | 0 => none
      | f + 1 => clearStalesAux maxLen f (i + 1) (retainAbove i l)
    else some l

/-- HashMap-style insert used by `ScoreCache::insert`: replaces the triple at
the key if present, else appends. -/
def scoreMapInsert {K V : Type} [DecidableEq K] (k : K) (v : V) (score : Int)
    (l : List (K × V × Int)) : List (K × V × Int) :=
  if l.any (fun e => decide (e.1 = k)) then
    l.map (fun e => if e.1 = k then (k, v, score) else e)
  else
    l ++ [(k, v, score)]

/-- Fuelled model of `ScoreCache::insert`: run `clear_stales`, then insert the
binding with the `INSERT_SCORE` score. -/
def scoreCacheInsert {K V : Type} [DecidableEq K] (insertScore : Int)
    (c : ScoreCacheM K V) (fuel : Nat) (k : K) (v : V) : Option (ScoreCacheM K V) :=
  (clearStalesAux c.maxLen fuel 0 c.entries).map
    (fun l => ⟨scoreMapInsert k v insertScore l, c.maxLen⟩)

theorem retainAbove_eq_nil {K V : Type} (i : Int) (l : List (K × V × Int))
    (h : ∀ e ∈ l, e.2.2 ≤ i) : retainAbove i l = [] := by
  unfold retainAbove
  rw [List.filter_eq_nil_iff]
  intro e he
  simp only [decide_eq_true_eq]
  exact not_lt.mpr (h e he)

theorem retainAbove_subset {K V : Type} (i : Int) (l : List (K × V × Int)) :
    ∀ e ∈ retainAbove i l, e ∈ l := by
  intro e he
  exact List.mem_of_mem_filter he

theorem clearStales_terminates {K V : Type} (maxLen : Nat) (hm : 1 ≤ maxLen) :
    ∀ (fuel : Nat) (i : Int) (l : List (K × V × Int)),
      (∀ e ∈ l, e.2.2 ≤ i + fuel) →
      ∃ r, clearStalesAux maxLen (fuel + 1) i l = some r ∧ r.length < maxLen := by
  intro fuel
  induction fuel with
  | zero =>
    intro i l hb
    by_cases hlen : maxLen ≤ l.length
    · refine ⟨[], ?_, by simp only [List.length_nil]; omega⟩
      have hnil : retainAbove i l = [] := retainAbove_eq_nil i l (by simpa using hb)
      unfold clearStalesAux
      simp only [hlen, if_true]
      rw [hnil]
      unfold clearStalesAux
      have hz : ¬ (maxLen ≤ ([] : List (K × V × Int)).length) := by
        simp only [List.length_nil]
        omega
      simp [hz]
      omega
    · exact ⟨l, by simp [clearStalesAux, hlen], by omega⟩
  | succ f ih =>
    intro i l hb
    by_cases hlen : maxLen ≤ l.length
    · have hb2 : ∀ e ∈ retainAbove i l, e.2.2 ≤ (i + 1) + f := by
        intro e he
        have := hb e (retainAbove_subset i l e he)
        omega
      obtain ⟨r, hr, hrlen⟩ := ih (i + 1) (retainAbove i l) hb2
      refine ⟨r, ?_, hrlen⟩
      simp only [clearStalesAux, hlen, if_true]
      exact hr
    · exact ⟨l, by simp [clearStalesAux, hlen], by omega⟩

theorem clearStales_never_terminates_of_maxLen_zero {K V : Type} :
    ∀ (fuel : Nat) (i : Int) (l : List (K × V × Int)),
      clearStalesAux 0 fuel i l = none := by
  intro fuel
  induction fuel with
  | zero => intro i l; simp [clearStalesAux]
  | succ f ih => intro i l; simp [clearStalesAux, ih]

theorem scoreMapInsert_length {K V : Type} [DecidableEq K] (k : K) (v : V)
    (s : Int) (l : List (K × V × Int)) :
    (scoreMapInsert k v s l).length ≤ l.length + 1 := by
  unfold scoreMapInsert
  by_cases h : l.any (fun e => decide (e.1 = k))
  · simp [h]
  · simp [h]

/-- A per-cache score bound: every entry score is at most this Nat. -/
def scoreBound {K V : Type} (l : List (K × V × Int)) : Nat :=
  ((l.map (fun (e : K × V × Int) => e.2.2)).foldr max 0).toNat

theorem le_foldr_max (l : List Int) : ∀ x ∈ l, x ≤ l.foldr max 0 := by
  induction l with
  | nil => simp
  | cons a as ih =>
    intro x hx
    rcases List.mem_cons.mp hx with h | h
    · subst h; exact le_max_left _ _
    · exact le_trans (ih x h) (le_max_right _ _)

theorem le_scoreBound {K V : Type} (l : List (K × V × Int)) :
    ∀ e ∈ l, e.2.2 ≤ (scoreBound l : Int) := by
  intro e he
  unfold scoreBound
  have h1 : e.2.2 ≤ (l.map (fun p => p.2.2)).foldr max 0 :=
    le_foldr_max _ _ (List.mem_map_of_mem (fun p => p.2.2) he)
  exact le_trans h1 (Int.self_le_toNat _)

/-- C10: for every cache with `max_len ≥ 1`, `insert` terminates (some fuel
suffices for the eviction loop) and leaves at most `max_len` entries; and with
`max_len = 0` the eviction loop never terminates, for any fuel, even on an
empty cache. -/
theorem score_cache_insert_spec {K V : Type} [DecidableEq K]
    (insertScore : Int) (c : ScoreCacheM K V) (k : K) (v : V)
    (hm : 1 ≤ c.maxLen) :
    (∃ fuel r, scoreCacheInsert insertScore c fuel k v = some r ∧
      r.entries.length ≤ c.maxLen) ∧
    (∀ (fuel : Nat) (i : Int) (l : List (K × V × Int)),
      clearStalesAux 0 fuel i l = none) := by
  constructor
  · obtain ⟨r, hr, hrlen⟩ :=
      clearStales_terminates c.maxLen hm (scoreBound c.entries) 0 c.entries
        (by simpa using le_scoreBound c.entries)
    refine ⟨scoreBound c.entries + 1, ⟨scoreMapInsert k v insertScore r, c.maxLen⟩, ?_, ?_⟩
    · unfold scoreCacheInsert
      rw [hr]
      rfl
    · have := scoreMapInsert_length k v insertScore r
      simp only
      omega
  · exact clearStales_never_terminates_of_maxLen_zero

/-- Witness for C10 on a concrete singleton cache with capacity 1. -/
theorem score_cache_insert_spec_witness :
    (∃ fuel r,
      scoreCacheInsert 4 (⟨[(0, 0, 3)], 1⟩ : ScoreCacheM Nat Nat) fuel 1 5 = some r ∧
      r.entries.length ≤ 1) ∧
    (∀ (fuel : Nat) (i : Int) (l : List (Nat × Nat × Int)),
      clearStalesAux 0 fuel i l = none) :=
  score_cache_insert_spec 4 ⟨[(0, 0, 3)], 1⟩ 1 5 (by decide)

/-! ## C1 — gateway head update
(src/interstate-gateway/src/state/mod.rs, `ConstraintState::update_head`)

On success the Rust function arms `CommitmentDeadline(head + 1)`, stores the
beacon header fetched for slot `head`, sets `latest_slot`, removes
`blocks[header.slot]`, and refreshes the epoch data when the epoch changed.
The beacon-client fetches are external: the fetched header and proposer
duties are passed in as parameters, modelling the successful return path. -/

/-- Model of `BeaconBlockHeader` (roots abstracted to Nat). -/
structure BeaconBlockHeaderM where
  slot : Nat
  proposerIndex : Nat
  parentRoot : Nat
  stateRoot : Nat
  bodyRoot : Nat
deriving DecidableEq

/-- Model of the gateway `Epoch` (duties as (slot, pubkey) pairs). -/
structure EpochM where
  value : Nat
  startSlot : Nat
  proposerDuties : List (Nat × Nat)
deriving DecidableEq

/-- Model of the gateway `ConstraintState` (block templates abstracted to
Nat identifiers keyed by slot). -/
structure ConstraintStateM where
  latestSlot : Nat
  header : BeaconBlockHeaderM
  blocks : List (Nat × Nat)
  currentEpoch : EpochM
  deadlineSlot : Nat
deriving DecidableEq

def SLOTS_PER_EPOCH : Nat := 32

/-- Model of the successful path of `ConstraintState::update_head(head)`,
with the fetched beacon header and (possibly refetched) proposer duties as
oracle inputs. -/
def update_head (st : ConstraintStateM) (head : Nat) (fetchedHeader : BeaconBlockHeaderM)
    (fetchedDuties : List (Nat × Nat)) : ConstraintStateM :=
  let slot := fetchedHeader.slot
  let epoch := slot / SLOTS_PER_EPOCH
  let st1 : ConstraintStateM :=
    { st with
      deadlineSlot := head + 1
      header := fetchedHeader
      latestSlot := head
      blocks := st.blocks.filter (fun e => e.1 != slot) }
  if epoch ≠ st.currentEpoch.value then
    { st1 with currentEpoch := ⟨epoch, epoch * SLOTS_PER_EPOCH, fetchedDuties⟩ }
  else st1

theorem find?_filter_key_self {α : Type} (l : List (Nat × α)) (s : Nat) :
    List.find? (fun e => e.1 == s) (l.filter (fun e => e.1 != s)) = none := by
  induction l with
  | nil => rfl
  | cons e l ih =>
    rw [List.filter_cons]
    by_cases he : e.1 = s
    · rw [if_neg (by simp [he])]
      exact ih
    · rw [if_pos (by simp [he]), List.find?_cons_of_neg _ (by simp [he])]
      exact ih

theorem find?_filter_key_ne {α : Type} (l : List (Nat × α)) (s s2 : Nat) (h : s2 ≠ s) :
    List.find? (fun e => e.1 == s2) (l.filter (fun e => e.1 != s)) =
      List.find? (fun e => e.1 == s2) l := by
  induction l with
  | nil => rfl
  | cons e l ih =>
    rw [List.filter_cons]
    by_cases he : e.1 = s
    · rw [if_neg (by simp [he])]
      rw [List.find?_cons_of_neg _ (by simp [he]; omega)]
      exact ih
    · rw [if_pos (by simp [he])]
      by_cases he2 : e.1 = s2
      · rw [List.find?_cons_of_pos _ (by simp [he2]),
          List.find?_cons_of_pos _ (by simp [he2])]
      · rw [List.find?_cons_of_neg _ (by simp [he2]),
          List.find?_cons_of_neg _ (by simp [he2])]
        exact ih

theorem assocGet_filter_self {α : Type} (l : List (Nat × α)) (s : Nat) :
    assocGet (l.filter (fun e => e.1 != s)) s = none := by
  unfold assocGet
  rw [find?_filter_key_self]
  rfl

theorem assocGet_filter_ne {α : Type} (l : List (Nat × α)) (s s2 : Nat) (h : s2 ≠ s) :
    assocGet (l.filter (fun e => e.1 != s)) s2 = assocGet l s2 := by
  unfold assocGet
  rw [find?_filter_key_ne l s s2 h]

theorem update_head_blocks (st : ConstraintStateM) (head : Nat)
    (hdr : BeaconBlockHeaderM) (duties : List (Nat × Nat)) :
    (update_head st head hdr duties).blocks =
      st.blocks.filter (fun e => e.1 != hdr.slot) := by
  unfold update_head
  by_cases h : hdr.slot / SLOTS_PER_EPOCH ≠ st.currentEpoch.value <;> simp [h]

def c1_state : ConstraintStateM := ⟨0, ⟨0, 0, 0, 0, 0⟩, [(3, 7)], ⟨0, 0, []⟩, 0⟩

/-- C1 counterexample: the claim says `update_head(S)` evicts the block
template of every slot `≤ S`; but with a template stored at slot 3 and the
head advanced to 5, the slot-3 template survives. -/
theorem c1_update_head_counterexample :
    ¬ (∀ (st : ConstraintStateM) (head : Nat) (hdr : BeaconBlockHeaderM)
        (duties : List (Nat × Nat)), hdr.slot = head →
        ∀ s2, s2 ≤ head → assocGet (update_head st head hdr duties).blocks s2 = none) := by
  intro h
  exact absurd (h c1_state 5 ⟨5, 0, 0, 0, 0⟩ [] rfl 3 (by omega)) (by decide)

/-- C1 amended: after a successful `update_head`, only the slot of the fetched
beacon header (the head slot) is evicted from `blocks`; the template of every
other slot is untouched. -/
theorem c1_update_head_amended (st : ConstraintStateM) (head : Nat)
    (hdr : BeaconBlockHeaderM) (duties : List (Nat × Nat)) :
    assocGet (update_head st head hdr duties).blocks hdr.slot = none ∧
    ∀ s2, s2 ≠ hdr.slot →
      assocGet (update_head st head hdr duties).blocks s2 = assocGet st.blocks s2 := by
  rw [update_head_blocks]
  exact ⟨assocGet_filter_self _ _, fun s2 h2 => assocGet_filter_ne _ _ _ h2⟩

/-- Witness for C1 amended at the concrete state of the counterexample. -/
theorem c1_update_head_amended_witness :
    assocGet (update_head c1_state 5 ⟨5, 0, 0, 0, 0⟩ []).blocks 3 =
      assocGet c1_state.blocks 3 :=
  (c1_update_head_amended c1_state 5 ⟨5, 0, 0, 0, 0⟩ []).2 3 (by decide)

/-! ## C5 — preconfirmation HTTP endpoint on channel overflow
(src/sidecar/src/commitment/request.rs, `handle_commitment_request`, and
src/sidecar/src/commitment/mod.rs, `IntoResponse for CommitmentRequestError`)

When `try_send` on the bounded MPSC channel fails, the handler returns
`CommitmentRequestError::Custom("System overloaded - please try again later")`
and every `Custom` error is converted to HTTP 500 (INTERNAL_SERVER_ERROR).
Signature recovery is cryptographic and passed as an oracle; the
per-transaction `Constraint::validate` outcome (whose definition is not part
of the sidecar sources) is carried as a boolean on the constraint model. -/

inductive CommitmentRequestError where
  | Parse : String → CommitmentRequestError
  | Custom : String → CommitmentRequestError
  | NotAllowedIP : String → CommitmentRequestError
deriving DecidableEq

def overload_msg : String := "System overloaded - please try again later"

/-- Model of `CommitmentRequestHandler::handle_commitment_request`.
`recoveredSigner` is the oracle outcome of ECDSA recovery over the request
digest; `channelFull` is whether `try_send` fails; `loopResponse` is the
event-loop reply on the oneshot channel (`none` = sender dropped). -/
def handle_commitment_request (req : PreconfRequestM) (recoveredSigner : Option Nat)
    (channelFull : Bool) (loopResponse : Option (Except CommitmentRequestError Nat)) :
    Except CommitmentRequestError Nat :=
  match recoveredSigner with
  | none =>
    Except.error (CommitmentRequestError.Custom "Failed to recover signer from request signature")
  | some signer =>
    if signer ≠ req.sender then
      Except.error (CommitmentRequestError.Custom "Invalid signature")
    else if req.txs.any (fun c => !c.validates) then
      Except.error (CommitmentRequestError.Custom "Sender of the transaction is invalid")
    else if channelFull then
      Except.error (CommitmentRequestError.Custom overload_msg)
    else
      match loopResponse with
      | some r => r
      | none =>
        Except.error (CommitmentRequestError.Custom
          "Failed in receiving commitment request event response from event loop")

/-- Model of `impl IntoResponse for CommitmentRequestError`: every variant is
mapped to `StatusCode::INTERNAL_SERVER_ERROR` (500). -/
def status_code_of_error (e : CommitmentRequestError) : Nat :=
  match e with
  | CommitmentRequestError.Custom _ => 500
  | CommitmentRequestError.Parse _ => 500
  | CommitmentRequestError.NotAllowedIP _ => 500

/-- Status of the `/api/v1/preconfirmation` response built from the handler
result by `handle_preconfirmation`. -/
def handle_preconfirmation_status (r : Except CommitmentRequestError Nat) : Nat :=
  match r with
  | Except.ok _ => 200
  | Except.error e => status_code_of_error e

def c5_req : PreconfRequestM := ⟨1, [], 9, 1⟩

/-- C5 counterexample: a well-signed, validating request hitting a full
channel is answered with status 500, not 503 as claimed. -/
theorem c5_overflow_counterexample :
    ¬ (∀ (req : PreconfRequestM) (resp : Option (Except CommitmentRequestError Nat)),
        (∀ c ∈ req.txs, c.validates = true) →
        handle_preconfirmation_status
          (handle_commitment_request req (some req.sender) true resp) = 503) := by
  intro h
  exact absurd (h c5_req none (by simp [c5_req])) (by decide)

/-- C5 amended: when the bounded MPSC channel is full, the handler fails with
the overload `Custom` error and the HTTP response status is 500
(INTERNAL_SERVER_ERROR), not 503. -/
theorem c5_overflow_gives_500 (req : PreconfRequestM)
    (resp : Option (Except CommitmentRequestError Nat))
    (hval : ∀ c ∈ req.txs, c.validates = true) :
    handle_commitment_request req (some req.sender) true resp =
      Except.error (CommitmentRequestError.Custom overload_msg) ∧
    handle_preconfirmation_status
      (handle_commitment_request req (some req.sender) true resp) = 500 := by
  have hany : req.txs.any (fun c => !c.validates) = false := by
    rw [List.any_eq_false]
    intro c hc
    simp [hval c hc]
  constructor
  · simp [handle_commitment_request, hany]
  · simp [handle_commitment_request, hany, handle_preconfirmation_status,
      status_code_of_error]

/-- Witness for C5 amended at the concrete request of the counterexample. -/
theorem c5_overflow_gives_500_witness :
    handle_commitment_request c5_req (some c5_req.sender) true none =
      Except.error (CommitmentRequestError.Custom overload_msg) ∧
    handle_preconfirmation_status
      (handle_commitment_request c5_req (some c5_req.sender) true none) = 500 :=
  c5_overflow_gives_500 c5_req none (by simp [c5_req])

/-! ## C6 — relay bid header validation
(src/interstate-pbs-module/src/server.rs, `validate_header`)

Hashes, roots and BLS public keys are abstracted to Nat (`B256::ZERO` is 0).
The BLS signature verification block in the source is commented out, so the
function never reads its `skip_sig_verify` parameter; the model keeps the
parameter and a `sigValid` oracle bit on the header so the claimed behaviour
can be stated and compared. -/

structure ExecutionPayloadHeaderM where
  blockHash : Nat
  parentHash : Nat
  txRoot : Nat
deriving DecidableEq

structure PayloadHeaderMessageM where
  header : ExecutionPayloadHeaderM
  value : Nat
  pubkey : Nat
deriving DecidableEq

/-- Model of `SignedExecutionPayloadHeader`; `sigValid` is the oracle outcome
of BLS verification of `signature` over `message` under the builder domain. -/
structure SignedExecutionPayloadHeaderM where
  message : PayloadHeaderMessageM
  sigValid : Bool
deriving DecidableEq

/-- The `EMPTY_TX_ROOT_HASH` constant of cb-common (hash-tree-root of an empty
ssz transaction list), as a Nat. -/
def EMPTY_TX_ROOT_HASH : Nat :=
  0x7ffe241ea60187fdb0187bfa22de35d1f9bed7ab061d9401fd47e34a54fbede1

inductive HeaderValidationError where
  | EmptyBlockhash
  | ParentHashMismatch
  | EmptyTxRoot
  | BidTooLow
  | PubkeyMismatch
  | Sigverify
deriving DecidableEq

/-- Model of `validate_header`.  The `chain` argument of the source is used
only by the commented-out signature check and is omitted;  `skipSigVerify`
is accepted but — faithfully to the code, where the whole signature block is
commented out — never read. -/
def validate_header (signedHeader : SignedExecutionPayloadHeaderM)
    (expectedRelayPubkey parentHash : Nat) (skipSigVerify : Bool)
    (minimumBidWei : Nat) : Except HeaderValidationError Unit :=
  let blockHash := signedHeader.message.header.blockHash
  let receivedRelayPubkey := signedHeader.message.pubkey
  let txRoot := signedHeader.message.header.txRoot
  let value := signedHeader.message.value
  if blockHash = 0 then Except.error HeaderValidationError.EmptyBlockhash
  else if parentHash ≠ signedHeader.message.header.parentHash then
    Except.error HeaderValidationError.ParentHashMismatch
  else if txRoot = EMPTY_TX_ROOT_HASH then Except.error HeaderValidationError.EmptyTxRoot
  else if value ≤ minimumBidWei then Except.error HeaderValidationError.BidTooLow
  else if expectedRelayPubkey ≠ receivedRelayPubkey then
    Except.error HeaderValidationError.PubkeyMismatch
  else Except.ok ()

/-- The acceptance condition as the claim states it (with the signature
clause): all five structural checks plus, unless skipped, a valid BLS
signature. -/
def header_accept_claimed (signedHeader : SignedExecutionPayloadHeaderM)
    (expectedRelayPubkey parentHash : Nat) (skipSigVerify : Bool)
    (minimumBidWei : Nat) : Bool :=
  (signedHeader.message.header.blockHash != 0) &&
  (parentHash == signedHeader.message.header.parentHash) &&
  (signedHeader.message.header.txRoot != EMPTY_TX_ROOT_HASH) &&
  (minimumBidWei < signedHeader.message.value) &&
  (expectedRelayPubkey == signedHeader.message.pubkey) &&
  (skipSigVerify || signedHeader.sigValid)

/-- The acceptance condition actually implemented: the five structural checks
only, with no signature verification at all. -/
def header_accept_code (signedHeader : SignedExecutionPayloadHeaderM)
    (expectedRelayPubkey parentHash : Nat) (minimumBidWei : Nat) : Bool :=
  (signedHeader.message.header.blockHash != 0) &&
  (parentHash == signedHeader.message.header.parentHash) &&
  (signedHeader.message.header.txRoot != EMPTY_TX_ROOT_HASH) &&
  (minimumBidWei < signedHeader.message.value) &&
  (expectedRelayPubkey == signedHeader.message.pubkey)

def c6_header : SignedExecutionPayloadHeaderM := ⟨⟨⟨1, 2, 3⟩, 10, 4⟩, false⟩

/-- C6 counterexample: a header passing the five structural checks whose BLS
signature is invalid, with signature verification not configured to be
skipped, is nevertheless accepted — the signature clause of the claim does
not hold on the code (the verification block is commented out). -/
theorem c6_validate_header_counterexample :
    ¬ (∀ (signedHeader : SignedExecutionPayloadHeaderM)
        (expectedRelayPubkey parentHash : Nat) (skipSigVerify : Bool)
        (minimumBidWei : Nat),
        validate_header signedHeader expectedRelayPubkey parentHash
            skipSigVerify minimumBidWei = Except.ok () ↔
          header_accept_claimed signedHeader expectedRelayPubkey parentHash
            skipSigVerify minimumBidWei = true) := by
  intro h
  exact absurd ((h c6_header 4 2 false 5).mp (by rfl)) (by decide)

/-- C6 amended: `validate_header` accepts exactly when block_hash is nonzero,
the parent hash matches, the transactions root differs from the empty-ssz
root, the value strictly exceeds `min_bid_wei`, and the pubkey matches; the
relay BLS signature is never verified (the check is commented out and
`skip_sig_verify` is ignored). -/
theorem c6_validate_header_amended (signedHeader : SignedExecutionPayloadHeaderM)
    (expectedRelayPubkey parentHash : Nat) (skipSigVerify : Bool)
    (minimumBidWei : Nat) :
    validate_header signedHeader expectedRelayPubkey parentHash
        skipSigVerify minimumBidWei = Except.ok () ↔
      header_accept_code signedHeader expectedRelayPubkey parentHash
        minimumBidWei = true := by
  unfold validate_header header_accept_code
  by_cases h1 : signedHeader.message.header.blockHash = 0
  · simp [h1]
  · by_cases h2 : parentHash = signedHeader.message.header.parentHash
    · by_cases h3 : signedHeader.message.header.txRoot = EMPTY_TX_ROOT_HASH
      · simp [h1, h2, h3]
      · by_cases h4 : signedHeader.message.value ≤ minimumBidWei
        · simp [h1, h2, h3, h4, not_le]
        · by_cases h5 : expectedRelayPubkey = signedHeader.message.pubkey
          · simp [h1, h2, h3, h4, h5, not_le]
            omega
          · simp [h1, h2, h3, h4, h5, not_le]
    · simp [h1, h2]

/-! ## C7 — constraint store insertion
(src/interstate-pbs-module/src/constraints.rs, `ConstraintStore::add_constraints`)

Raw transactions are byte lists; keccak256, ssz hash-tree-roots and EIP-2718
decoding of type-3 envelopes are collapsed into a codec oracle.  The
`ConstraintsMessage` type referenced from the missing `types` module follows
the identical definition in
src/interstate-commit-boost-module/src/types.rs. -/

def PER_SLOT_MAX_CONSTRAINTS : Nat := 128

structure PbsConstraintsMessage where
  pubkey : Nat
  slot : Nat
  top : Bool
  transactions : List (List Nat)
deriving DecidableEq

/-- Oracle bundle for `ConstraintsWithProofData::try_from`: keccak256 and raw
hash-tree-root for non-type-3 transactions, and the (fallible) EIP-2718
decode plus hashing for type-3 envelopes. -/
structure TxCodec where
  keccak : List Nat → Nat
  hashTreeRootRaw : List Nat → Nat
  decodeType3 : List Nat → Option (Nat × Nat)

structure ConstraintsWithProofDataM where
  message : PbsConstraintsMessage
  proofData : List (Nat × Nat)

/-- Per-transaction part of `ConstraintsWithProofData::try_from`: empty bytes
are a decode error; a first byte other than 0x03 yields
`(keccak256(raw), hash_tree_root_raw_tx(raw))`; type-3 envelopes go through
the fallible decode oracle. -/
def tx_proof_data (codec : TxCodec) (raw : List Nat) : Option (Nat × Nat) :=
  match raw with
  | [] => none
  | b :: _ =>
    if b = 3 then codec.decodeType3 raw
    else some (codec.keccak raw, codec.hashTreeRootRaw raw)

/-- Model of `ConstraintsWithProofData::try_from`. -/
def try_from_msg (codec : TxCodec) (m : PbsConstraintsMessage) :
    Option ConstraintsWithProofDataM :=
  (m.transactions.mapM (tx_proof_data codec)).map (fun pd => ⟨m, pd⟩)

def ConstraintStoreM : Type := List (Nat × List ConstraintsWithProofDataM)

inductive StoreConflict where
  | TopOfBlock
  | DuplicateTransaction
deriving DecidableEq

inductive StoreError where
  | Conflict : StoreConflict → StoreError
  | Decode : StoreError
  | LimitExceeded : Nat → StoreError
deriving DecidableEq

/-- Whether some transaction of `m` already occurs in a constraint stored for
`slot` (raw-byte equality, as the Rust `tx == existing` on `Bytes`). -/
def duplicate_exists (cache : ConstraintStoreM) (slot : Nat)
    (m : PbsConstraintsMessage) : Bool :=
  ((assocGet cache slot).getD []).any (fun sc =>
    m.transactions.any (fun tx =>
      sc.message.transactions.any (fun existing => tx == existing)))

/-- Model of `ConstraintStore::check_conflicts` (the top-of-block conflict is
commented out in the source and therefore absent). -/
def check_conflicts (cache : ConstraintStoreM) (slot : Nat)
    (m : PbsConstraintsMessage) : Option StoreConflict :=
  match assocGet cache slot with
  | some saved =>
    if saved.any (fun sc =>
        m.transactions.any (fun tx =>
          sc.message.transactions.any (fun existing => tx == existing))) then
      some StoreConflict.DuplicateTransaction
    else none
  | none => none

/-- Model of `ConstraintStore::add_constraints`, returning the call result
together with the store contents after the call (mirroring the mutation). -/
def add_constraints (codec : TxCodec) (cache : ConstraintStoreM) (slot : Nat)
    (m : PbsConstraintsMessage) : Except StoreError Unit × ConstraintStoreM :=
  match check_conflicts cache slot m with
  | some c => (Except.error (StoreError.Conflict c), cache)
  | none =>
    match try_from_msg codec m with
    | none => (Except.error StoreError.Decode, cache)
    | some mwd =>
      match assocGet cache slot with
      | some cs =>
        if PER_SLOT_MAX_CONSTRAINTS ≤ cs.length then
          (Except.error (StoreError.LimitExceeded slot), cache)
        else
          (Except.ok (), assocInsert cache slot (cs ++ [mwd]))
      | none => (Except.ok (), assocInsert cache slot [mwd])

theorem check_conflicts_eq (cache : ConstraintStoreM) (slot : Nat)
    (m : PbsConstraintsMessage) :
    check_conflicts cache slot m =
      if duplicate_exists cache slot m = true then
        some StoreConflict.DuplicateTransaction
      else none := by
  unfold check_conflicts duplicate_exists
  cases h : assocGet cache slot with
  | none => simp [h]
  | some saved => simp [h]

/-- C7: `add_constraints` rejects with `DuplicateTransaction` when any
transaction of the message already occurs in a constraint stored for the
slot; rejects with `LimitExceeded` when (absent a duplicate and with the
message decodable) at least 128 constraints are already stored for the slot;
and on every error the store is unchanged. -/
theorem add_constraints_spec (codec : TxCodec) (cache : ConstraintStoreM)
    (slot : Nat) (m : PbsConstraintsMessage) :
    (duplicate_exists cache slot m = true →
      add_constraints codec cache slot m =
        (Except.error (StoreError.Conflict StoreConflict.DuplicateTransaction), cache)) ∧
    (duplicate_exists cache slot m = false →
      (∃ mwd, try_from_msg codec m = some mwd) →
      PER_SLOT_MAX_CONSTRAINTS ≤ ((assocGet cache slot).getD []).length →
      add_constraints codec cache slot m =
        (Except.error (StoreError.LimitExceeded slot), cache)) ∧
    (∀ e, (add_constraints codec cache slot m).1 = Except.error e →
      (add_constraints codec cache slot m).2 = cache) := by
  refine ⟨?_, ?_, ?_⟩
  · intro hdup
    unfold add_constraints
    rw [check_conflicts_eq]
    simp [hdup]
  · intro hdup hdec hlen
    unfold add_constraints
    rw [check_conflicts_eq]
    obtain ⟨mwd, hmwd⟩ := hdec
    cases hget : assocGet cache slot with
    | none =>
      rw [hget] at hlen
      simp [PER_SLOT_MAX_CONSTRAINTS] at hlen
    | some cs =>
      simp only [hget, Option.getD_some] at hlen
      simp [hdup, hmwd, hget, hlen]
  · intro e
    unfold add_constraints
    rw [check_conflicts_eq]
    cases hdup : duplicate_exists cache slot m with
    | true => simp
    | false =>
      simp only [Bool.false_eq_true, if_false]
      cases htf : try_from_msg codec m with
      | none => simp
      | some mwd =>
        cases hget : assocGet cache slot with
        | none => simp
        | some cs =>
          by_cases hlen : PER_SLOT_MAX_CONSTRAINTS ≤ cs.length
          · simp [hlen]
          · simp [hlen]

def c7_codec : TxCodec := ⟨fun l => l.length, fun l => l.length + 1, fun _ => none⟩

def c7_cache : ConstraintStoreM := [(1, [⟨⟨0, 1, false, [[5]]⟩, [(1, 2)]⟩])]

def c7_msg : PbsConstraintsMessage := ⟨9, 1, false, [[5]]⟩

/-- Witness for C7: resubmitting a transaction already stored for slot 1 is
rejected with `DuplicateTransaction` and the store is unchanged. -/
theorem add_constraints_spec_witness :
    add_constraints c7_codec c7_cache 1 c7_msg =
      (Except.error (StoreError.Conflict StoreConflict.DuplicateTransaction), c7_cache) :=
  (add_constraints_spec c7_codec c7_cache 1 c7_msg).1 (by decide)

/-! ## C4 — fallback builder engine-hint loop
(src/interstate-gateway/src/constraints/block_builder.rs, `build_sealed_block`)

Each iteration of the Rust `loop` makes exactly one
`fetch_next_payload_hint` call (an `engine_newPayloadV3` round-trip, modelled
as an oracle indexed by call number; `none` models a transport/API error
propagated by `?`).  On `ValidPayload` the loop returns the sealed block; on
any other hint it updates the hint set, then checks `i > max_iterations`
(with `max_iterations = 20`) and increments `i`.  The loop counter `i` is
also the index of the call just made; the model recurses structurally on
`remaining = 21 - i`, which is 0 exactly when the Rust guard `i > 20` fires. -/

inductive EngineApiHint where
  | BlockHash : Nat → EngineApiHint
  | GasUsed : Nat → EngineApiHint
  | StateRoot : Nat → EngineApiHint
  | ReceiptsRoot : Nat → EngineApiHint
  | LogsBloom : Nat → EngineApiHint
  | BaseFee : Nat → EngineApiHint
  | ValidPayload
deriving DecidableEq

structure HintsM where
  blockHash : Option Nat
  gasUsed : Option Nat
  stateRoot : Option Nat
  receiptsRoot : Option Nat
  logsBloom : Option Nat
  baseFee : Option Nat
deriving DecidableEq

def default_hints : HintsM := ⟨none, none, none, none, none, none⟩

inductive BuilderError where
  | EngineCall
  | TooManyIterations
deriving DecidableEq

/-- Hint bookkeeping of the non-returning match arms of the loop. -/
def apply_hint (hints : HintsM) (h : EngineApiHint) : HintsM :=
  match h with
  | EngineApiHint.BlockHash v => { hints with blockHash := some v }
  | EngineApiHint.GasUsed v => { hints with gasUsed := some v, blockHash := none }
  | EngineApiHint.StateRoot v => { hints with stateRoot := some v, blockHash := none }
  | EngineApiHint.ReceiptsRoot v => { hints with receiptsRoot := some v, blockHash := none }
  | EngineApiHint.LogsBloom v => { hints with logsBloom := some v, blockHash := none }
  | EngineApiHint.BaseFee v => { hints with baseFee := some v, blockHash := none }
  | EngineApiHint.ValidPayload => hints

/-- Model of the hint loop; returns the outcome together with the total
number of `fetch_next_payload_hint` calls made. -/
def hint_loop (oracle : Nat → Option EngineApiHint) :
    HintsM → Nat → Nat → (Except BuilderError Unit) × Nat
  | _, i, 0 =>
    match oracle i with
    | none => (Except.error BuilderError.EngineCall, i + 1)
    | some EngineApiHint.ValidPayload => (Except.ok (), i + 1)
    | some _ => (Except.error BuilderError.TooManyIterations, i + 1)
  | hints, i, r + 1 =>
    match oracle i with
    | none => (Except.error BuilderError.EngineCall, i + 1)
    | some EngineApiHint.ValidPayload => (Except.ok (), i + 1)
    | some h => hint_loop oracle (apply_hint hints h) (i + 1) r

/-- The loop of `build_sealed_block`, started with empty hints, `i = 0`, and
the iteration budget implied by `max_iterations = 20`. -/
def build_sealed_block_loop (oracle : Nat → Option EngineApiHint) :
    (Except BuilderError Unit) × Nat :=
  hint_loop oracle default_hints 0 21

/-- C4 counterexample: with the engine answering a gas-used hint every time,
the loop performs 22 `engine_newPayloadV3` calls before giving up — more than
the 20 the claim allows. -/
theorem c4_hint_loop_counterexample :
    ¬ (∀ oracle : Nat → Option EngineApiHint,
        (build_sealed_block_loop oracle).2 ≤ 20) := by
  intro h
  exact absurd (h (fun _ => some (EngineApiHint.GasUsed 0))) (by decide)

theorem hint_loop_zero_none {oracle : Nat → Option EngineApiHint} {hints : HintsM}
    {i : Nat} (h : oracle i = none) :
    hint_loop oracle hints i 0 = (Except.error BuilderError.EngineCall, i + 1) := by
  conv_lhs => unfold hint_loop
  rw [h]

theorem hint_loop_zero_valid {oracle : Nat → Option EngineApiHint} {hints : HintsM}
    {i : Nat} (h : oracle i = some EngineApiHint.ValidPayload) :
    hint_loop oracle hints i 0 = (Except.ok (), i + 1) := by
  conv_lhs => unfold hint_loop
  rw [h]

theorem hint_loop_zero_hint {oracle : Nat → Option EngineApiHint} {hints : HintsM}
    {i : Nat} {hint : EngineApiHint} (h : oracle i = some hint)
    (hnv : hint ≠ EngineApiHint.ValidPayload) :
    hint_loop oracle hints i 0 = (Except.error BuilderError.TooManyIterations, i + 1) := by
  conv_lhs => unfold hint_loop
  rw [h]
  cases hint <;> first | rfl | exact absurd rfl hnv

theorem hint_loop_step_none {oracle : Nat → Option EngineApiHint} {hints : HintsM}
    {i r : Nat} (h : oracle i = none) :
    hint_loop oracle hints i (r + 1) = (Except.error BuilderError.EngineCall, i + 1) := by
  conv_lhs => unfold hint_loop
  rw [h]

theorem hint_loop_step_valid {oracle : Nat → Option EngineApiHint} {hints : HintsM}
    {i r : Nat} (h : oracle i = some EngineApiHint.ValidPayload) :
    hint_loop oracle hints i (r + 1) = (Except.ok (), i + 1) := by
  conv_lhs => unfold hint_loop
  rw [h]

theorem hint_loop_step_hint {oracle : Nat → Option EngineApiHint} {hints : HintsM}
    {i r : Nat} {hint : EngineApiHint} (h : oracle i = some hint)
    (hnv : hint ≠ EngineApiHint.ValidPayload) :
    hint_loop oracle hints i (r + 1) =
      hint_loop oracle (apply_hint hints hint) (i + 1) r := by
  conv_lhs => unfold hint_loop
  rw [h]
  cases hint <;> first | rfl | exact absurd rfl hnv

theorem hint_loop_calls (oracle : Nat → Option EngineApiHint) :
    ∀ (r i : Nat) (hints : HintsM),
      (hint_loop oracle hints i r).2 ≤ i + r + 1 ∧
      ((∀ j, i ≤ j → j < i + r + 1 →
          ∃ h, oracle j = some h ∧ h ≠ EngineApiHint.ValidPayload) →
        hint_loop oracle hints i r =
          (Except.error BuilderError.TooManyIterations, i + r + 1)) := by
  intro r
  induction r with
  | zero =>
    intro i hints
    constructor
    · cases ho : oracle i with
      | none => rw [hint_loop_zero_none ho]
      | some hint =>
        by_cases hnv : hint = EngineApiHint.ValidPayload
        · subst hnv; rw [hint_loop_zero_valid ho]
        · rw [hint_loop_zero_hint ho hnv]
    · intro hall
      obtain ⟨h, hh, hnv⟩ := hall i (le_refl i) (by omega)
      rw [hint_loop_zero_hint hh hnv]
  | succ r ih =>
    intro i hints
    constructor
    · cases ho : oracle i with
      | none => rw [hint_loop_step_none ho]; omega
      | some hint =>
        by_cases hnv : hint = EngineApiHint.ValidPayload
        · subst hnv; rw [hint_loop_step_valid ho]; omega
        · rw [hint_loop_step_hint ho hnv]
          have hle := (ih (i + 1) (apply_hint hints hint)).1
          omega
    · intro hall
      obtain ⟨h, hh, hnv⟩ := hall i (le_refl i) (by omega)
      rw [hint_loop_step_hint hh hnv]
      rw [(ih (i + 1) (apply_hint hints h)).2
        (fun j hj1 hj2 => hall j (by omega) (by omega))]
      have harith : i + 1 + r + 1 = i + (r + 1) + 1 := by omega
      rw [harith]

/-- C4 amended: each build makes at most 22 `engine_newPayloadV3` calls, and
when the engine never answers VALID (and never errors) in those 22 calls the
loop stops with the too-many-iterations error after exactly 22 calls. -/
theorem c4_hint_loop_amended (oracle : Nat → Option EngineApiHint) :
    (build_sealed_block_loop oracle).2 ≤ 22 ∧
    ((∀ j, j < 22 → ∃ h, oracle j = some h ∧ h ≠ EngineApiHint.ValidPayload) →
      build_sealed_block_loop oracle =
        (Except.error BuilderError.TooManyIterations, 22)) := by
  have h := hint_loop_calls oracle 21 0 default_hints
  unfold build_sealed_block_loop
  constructor
  · exact h.1
  · intro hall
    exact h.2 (fun j hj1 hj2 => hall j (by omega))

/-- Witness for C4 amended: the constantly-hinting engine drives the loop to
exactly 22 calls and a fatal error. -/
theorem c4_hint_loop_amended_witness :
    build_sealed_block_loop (fun _ => some (EngineApiHint.GasUsed 0)) =
      (Except.error BuilderError.TooManyIterations, 22) :=
  (c4_hint_loop_amended (fun _ => some (EngineApiHint.GasUsed 0))).2
    (fun j _ => ⟨EngineApiHint.GasUsed 0, rfl, by simp⟩)

/-! ## C2 / C3 — execution-layer preflight validation
(src/sidecar/src/state/execution.rs, `ExecutionState::verify_el_tx`, with the
request validators of src/sidecar/src/commitment/inclusion.rs, the pricing of
src/sidecar/src/state/pricing.rs, and the helpers of
src/sidecar/src/utils/transactions.rs)

Transactions carry the fields the validators inspect.  ECDSA signer recovery,
the KZG proof check of `validate_blob`, the execution-client account fetch,
and the f64/ln part of the inclusion pricer are external and appear as oracle
fields (`recoveredSigner`, `blobValid`, `fetchAccount`, `inclusionTipWei`).
The `ScoreCache` bookkeeping of `account_states` (scores, eviction) never
changes which value a lookup returns, because the client oracle is a fixed
function; the cache is therefore threaded as a plain association list. -/

structure Eip4844DataM where
  maxFeePerBlobGas : Nat
  blobGas : Nat
  blobHashesLen : Nat
  withSidecar : Bool
  blobValid : Bool
deriving DecidableEq

/-- Model of a `FullTransaction` (a `PooledTransaction` plus recovered
sender). -/
structure ModelTx where
  recoveredSigner : Option Nat
  chainId : Option Nat
  nonce : Nat
  gasLimit : Nat
  maxFeePerGas : Nat
  maxPriorityFeePerGas : Option Nat
  value : Nat
  size : Nat
  isCreate : Bool
  inputLen : Nat
  eip4844 : Option Eip4844DataM
deriving DecidableEq

/-- Model of `InclusionRequest` (signature and signer bookkeeping omitted;
recovery outcomes live on the transactions). -/
structure InclusionRequestM where
  slot : Nat
  txs : List ModelTx
deriving DecidableEq

def InclusionRequestM.gas_limit (r : InclusionRequestM) : Nat :=
  (r.txs.map (fun tx => tx.gasLimit)).sum

def InclusionRequestM.validate_chain_id (r : InclusionRequestM) (chainId : Nat) : Bool :=
  r.txs.all (fun tx =>
    match tx.chainId with
    | some id => id == chainId
    | none => true)

def InclusionRequestM.validate_tx_size_limit (r : InclusionRequestM) (limit : Nat) : Bool :=
  r.txs.all (fun tx => !(decide (limit < tx.size)))

def InclusionRequestM.validate_init_code_limit (r : InclusionRequestM) (limit : Nat) : Bool :=
  r.txs.all (fun tx => !(tx.isCreate && decide (limit < tx.inputLen)))

def InclusionRequestM.validate_max_priority_fee (r : InclusionRequestM) : Bool :=
  r.txs.all (fun tx =>
    match tx.maxPriorityFeePerGas with
    | some p => !(decide (tx.maxFeePerGas < p))
    | none => true)

def InclusionRequestM.validate_basefee (r : InclusionRequestM) (minfee : Nat) : Bool :=
  r.txs.all (fun tx => !(decide (tx.maxFeePerGas < minfee)))

/-- Model of `FullTransaction::effective_tip_per_gas` from utils/transactions.rs. -/
def ModelTx.effective_tip_per_gas (tx : ModelTx) (baseFee : Nat) : Option Nat :=
  if tx.maxFeePerGas < baseFee then none
  else
    match tx.maxPriorityFeePerGas with
    | some priorityFee => some (min (tx.maxFeePerGas - baseFee) priorityFee)
    | none => some (tx.maxFeePerGas - baseFee)

inductive PricingError where
  | ExceedsBlockLimit : Nat → Nat → PricingError
  | InvalidGasLimit : Nat → PricingError
  | InsufficientGas : Nat → Nat → PricingError
  | TipTooLow : Nat → Nat → PricingError
deriving DecidableEq

/-- Model of `validate_fee_inputs` of src/sidecar/src/state/pricing.rs (pure integer
arithmetic). -/
def validate_fee_inputs (incomingGas preconfirmedGas gasLimit : Nat) :
    Except PricingError Unit :=
  if gasLimit ≤ preconfirmedGas then
    Except.error (PricingError.ExceedsBlockLimit preconfirmedGas gasLimit)
  else if incomingGas = 0 then
    Except.error (PricingError.InvalidGasLimit incomingGas)
  else if gasLimit - preconfirmedGas < incomingGas then
    Except.error (PricingError.InsufficientGas incomingGas (gasLimit - preconfirmedGas))
  else Except.ok ()

/-- Model of `InclusionPricer`; `inclusionTipWei` is the oracle for the
f64/ln computation of `inclusion_tip_wei` (BASE_MULTIPLIER, GAS_SCALAR and
the logarithm), indexed by `(incoming_gas, preconfirmed_gas)`. -/
structure InclusionPricerM where
  blockGasLimit : Nat
  inclusionTipWei : Nat → Nat → Nat

/-- Model of `InclusionPricer::calculate_min_priority_fee`: validate the integer
inputs, then divide the (oracle) inclusion tip by the incoming gas. -/
def calculate_min_priority_fee (p : InclusionPricerM) (incomingGas preconfirmedGas : Nat) :
    Except PricingError Nat :=
  match validate_fee_inputs incomingGas preconfirmedGas p.blockGasLimit with
  | Except.error e => Except.error e
  | Except.ok _ => Except.ok (p.inclusionTipWei incomingGas preconfirmedGas / incomingGas)

/-- The per-transaction loop of `InclusionRequest::validate_min_priority_fee`.
The Rust code accumulates `local_preconfirmed_gas` but (faithfully) keeps
passing the original `preconfirmed_gas` to the pricer, so the accumulator is
dead and not modelled. -/
def validate_min_priority_fee_go (p : InclusionPricerM)
    (preconfirmedGas minInclusionProfit maxBaseFee : Nat) :
    List ModelTx → Except PricingError Bool
  | [] => Except.ok true
  | tx :: rest =>
    match calculate_min_priority_fee p tx.gasLimit preconfirmedGas with
    | Except.error e => Except.error e
    | Except.ok mpf =>
      let minPriorityFee := mpf + minInclusionProfit
      let tip := (tx.effective_tip_per_gas maxBaseFee).getD 0
      if tip < minPriorityFee then
        Except.error (PricingError.TipTooLow tip minPriorityFee)
      else
        validate_min_priority_fee_go p preconfirmedGas minInclusionProfit maxBaseFee rest

def InclusionRequestM.validate_min_priority_fee (r : InclusionRequestM)
    (p : InclusionPricerM) (preconfirmedGas minInclusionProfit maxBaseFee : Nat) :
    Except PricingError Bool :=
  validate_min_priority_fee_go p preconfirmedGas minInclusionProfit maxBaseFee r.txs

structure AccountStateM where
  transactionCount : Nat
  balance : Nat
  hasCode : Bool
deriving DecidableEq

/-- Model of `max_transaction_cost` of utils/transactions.rs. -/
def max_transaction_cost (tx : ModelTx) : Nat :=
  let feeCap := tx.maxFeePerGas + (tx.maxPriorityFeePerGas.getD 0) +
    (match tx.eip4844 with
     | some e4 => e4.maxFeePerBlobGas + e4.blobGas
     | none => 0)
  tx.gasLimit * feeCap + tx.value

inductive ValidationError where
  | BaseFeeTooLow : Nat → ValidationError
  | BlobBaseFeeTooLow : Nat → ValidationError
  | BlobValidation : ValidationError
  | MaxBaseFeeCalcOverflow : ValidationError
  | NonceTooLow : Nat → Nat → ValidationError
  | NonceTooHigh : Nat → Nat → ValidationError
  | AccountHasCode : ValidationError
  | GasLimitTooHigh : ValidationError
  | TransactionSizeTooHigh : ValidationError
  | MaxPriorityFeePerGasTooHigh : ValidationError
  | MaxPriorityFeePerGasTooLow : Nat → Nat → ValidationError
  | InsufficientBalance : ValidationError
  | Pricing : PricingError → ValidationError
  | Eip4844Limit : ValidationError
  | SlotTooLow : Nat → ValidationError
  | MaxCommitmentsReachedForSlot : Nat → Nat → ValidationError
  | MaxCommittedGasReachedForSlot : Nat → Nat → ValidationError
  | Signature : ValidationError
  | ChainIdMismatch : ValidationError
  | Internal : String → ValidationError
deriving DecidableEq

/-- Model of `validate_transaction` of utils/transactions.rs. -/
def validate_transaction (accountState : AccountStateM) (tx : ModelTx) :
    Except ValidationError Unit :=
  if tx.nonce < accountState.transactionCount then
    Except.error (ValidationError.NonceTooLow accountState.transactionCount tx.nonce)
  else if accountState.transactionCount < tx.nonce then
    Except.error (ValidationError.NonceTooHigh accountState.transactionCount tx.nonce)
  else if accountState.balance < max_transaction_cost tx then
    Except.error ValidationError.InsufficientBalance
  else if accountState.hasCode then
    Except.error ValidationError.AccountHasCode
  else Except.ok ()

/-- Model of `BlockTemplate`: the per-address state diffs and, for each signed
constraint message, its transactions. -/
structure BlockTemplateM where
  stateDiffs : List (Nat × Nat × Nat)
  constraintsTxs : List (List ModelTx)
deriving DecidableEq

/-- Model of `BlockTemplate::get_diff`. -/
def BlockTemplateM.get_diff (t : BlockTemplateM) (addr : Nat) : Option (Nat × Nat) :=
  (t.stateDiffs.find? (fun e => e.1 == addr)).map (fun e => e.2)

/-- Model of `BlockTemplate::committed_gas`: total gas limit over all transactions of
all stored signed constraints. -/
def BlockTemplateM.committed_gas (t : BlockTemplateM) : Nat :=
  t.constraintsTxs.foldl
    (fun acc txs => acc + txs.foldl (fun a c => a + c.gasLimit) 0) 0

/-- Model of `BlockTemplate::blob_count`. -/
def BlockTemplateM.blob_count (t : BlockTemplateM) : Nat :=
  t.constraintsTxs.foldl
    (fun acc txs => acc + txs.foldl
      (fun a c => a + (match c.eip4844 with
                       | some e4 => e4.blobHashesLen
                       | none => 0)) 0) 0

def MAX_BLOBS_PER_BLOCK : Nat := 6

/-- Model of `ExecutionState`.  `fetchAccount` is the execution-client oracle
behind `client.get_account_state` (`none` = transport error); `blockGasLimit`
and `pricingBlockGasLimit` are the `gas_limit` copies held by
`validation_params` and by the pricer. -/
structure ExecutionStateM where
  slot : Nat
  chainId : Nat
  basefee : Nat
  blobBasefee : Nat
  maxCommittedGasPerSlot : Nat
  minInclusionProfit : Nat
  blockGasLimit : Nat
  maxTxInputBytes : Nat
  maxInitCodeByteSize : Nat
  pricingBlockGasLimit : Nat
  blockTemplates : List (Nat × BlockTemplateM)
  accountStates : List (Nat × AccountStateM)
  fetchAccount : Nat → Option AccountStateM
  inclusionTipWei : Nat → Nat → Nat

def ExecutionStateM.pricer (st : ExecutionStateM) : InclusionPricerM :=
  ⟨st.pricingBlockGasLimit, st.inclusionTipWei⟩

/-- Model of `ExecutionState::get_block_template`. -/
def get_block_template (st : ExecutionStateM) (slot : Nat) : Option BlockTemplateM :=
  assocGet st.blockTemplates slot

/-- The committed gas of the target-slot template, or 0
(`.map(committed_gas).unwrap_or(0)`). -/
def preconfirmed_gas (st : ExecutionStateM) (targetSlot : Nat) : Nat :=
  ((get_block_template st targetSlot).map BlockTemplateM.committed_gas).getD 0

/-- Model of `compute_diffs`: fold the per-template diffs for a sender into total
nonce diff, saturating total balance diff, and highest slot with a diff. -/
def compute_diffs (templates : List (Nat × BlockTemplateM)) (sender : Nat) :
    Nat × Nat × Nat :=
  templates.foldl
    (fun acc e =>
      let d := match e.2.get_diff sender with
               | some (n, b) => (n, b, e.1)
               | none => (0, 0, 0)
      (acc.1 + d.1, acc.2.1 + d.2.1, max acc.2.2 d.2.2))
    (0, 0, 0)

/-- Account lookup of the loop body: the `ScoreCache` first, then the client
oracle (caching the fetched value); `none` models the fetch error turned into
`ValidationError::Internal`. -/
def lookup_account (cache : List (Nat × AccountStateM))
    (fetch : Nat → Option AccountStateM) (sender : Nat) :
    Option (AccountStateM × List (Nat × AccountStateM)) :=
  match assocGet cache sender with
  | some a => some (a, cache)
  | none =>
    match fetch sender with
    | some a => some (a, assocInsert cache sender a)
    | none => none

/-- Blob fee part of the EIP-4844 branch of the loop. -/
def blob_fee_checks (st : ExecutionStateM) (slotDiff : Nat) (e4 : Eip4844DataM) :
    Except ValidationError Unit :=
  match calculate_max_basefee st.blobBasefee slotDiff with
  | none => Except.error ValidationError.MaxBaseFeeCalcOverflow
  | some maxBlobBasefee =>
    if e4.maxFeePerBlobGas < maxBlobBasefee then
      Except.error (ValidationError.BlobBaseFeeTooLow maxBlobBasefee)
    else if e4.blobValid then Except.ok ()
    else Except.error ValidationError.BlobValidation

/-- The `if let Some(transaction) = tx.as_eip4844_with_sidecar()` branch. -/
def blob_checks (st : ExecutionStateM) (targetSlot slotDiff : Nat) (tx : ModelTx) :
    Except ValidationError Unit :=
  match tx.eip4844 with
  | none => Except.ok ()
  | some e4 =>
    if e4.withSidecar then
      match get_block_template st targetSlot with
      | some t =>
        if MAX_BLOBS_PER_BLOCK ≤ t.blob_count then
          Except.error ValidationError.Eip4844Limit
        else blob_fee_checks st slotDiff e4
      | none => blob_fee_checks st slotDiff e4
    else Except.ok ()

/-- One iteration of the per-transaction loop at the end of `verify_el_tx`:
the checks for a single transaction, yielding the updated account cache and
bundle nonce/balance diff maps. -/
def verify_tx_step (st : ExecutionStateM) (targetSlot slotDiff : Nat) (tx : ModelTx)
    (cache : List (Nat × AccountStateM)) (nonceMap balanceMap : List (Nat × Nat)) :
    Except ValidationError
      (List (Nat × AccountStateM) × List (Nat × Nat) × List (Nat × Nat)) :=
  let sender := tx.recoveredSigner.getD 0
  let d := compute_diffs st.blockTemplates sender
  if targetSlot < d.2.2 then Except.error (ValidationError.SlotTooLow d.2.2)
  else
    match lookup_account cache st.fetchAccount sender with
    | none => Except.error (ValidationError.Internal "Error fetching account state")
    | some (accountState, cache1) =>
      let senderNonceDiff := (assocGet nonceMap sender).getD 0
      let senderBalanceDiff := (assocGet balanceMap sender).getD 0
      let acct : AccountStateM :=
        ⟨accountState.transactionCount + d.1 + senderNonceDiff,
         accountState.balance - d.2.1 - senderBalanceDiff,
         accountState.hasCode⟩
      match validate_transaction acct tx with
      | Except.error e => Except.error e
      | Except.ok _ =>
        match blob_checks st targetSlot slotDiff tx with
        | Except.error e => Except.error e
        | Except.ok _ =>
          Except.ok (cache1, assocInsert nonceMap sender (senderNonceDiff + 1),
            assocInsert balanceMap sender (senderBalanceDiff + max_transaction_cost tx))

/-- The per-transaction loop at the end of `verify_el_tx`, threading the
account cache and the bundle nonce/balance diff maps through the steps. -/
def verify_tx_loop (st : ExecutionStateM) (targetSlot slotDiff : Nat) :
    List ModelTx → List (Nat × AccountStateM) → List (Nat × Nat) → List (Nat × Nat) →
    Except ValidationError Unit
  | [], _, _, _ => Except.ok ()
  | tx :: rest, cache, nonceMap, balanceMap =>
    match verify_tx_step st targetSlot slotDiff tx cache nonceMap balanceMap with
    | Except.error e => Except.error e
    | Except.ok (cache1, nonceMap1, balanceMap1) =>
      verify_tx_loop st targetSlot slotDiff rest cache1 nonceMap1 balanceMap1

/-- Model of `ExecutionState::verify_el_tx`, following the check order of the
source line by line. -/
def verify_el_tx (st : ExecutionStateM) (req : InclusionRequestM) :
    Except ValidationError Unit :=
  if !(req.txs.all (fun tx => tx.recoveredSigner.isSome)) then
    Except.error ValidationError.Signature
  else if !(req.validate_chain_id st.chainId) then
    Except.error ValidationError.ChainIdMismatch
  else if st.maxCommittedGasPerSlot ≤ preconfirmed_gas st req.slot + req.gas_limit then
    Except.error (ValidationError.MaxCommittedGasReachedForSlot st.slot st.maxCommittedGasPerSlot)
  else if !(req.validate_init_code_limit st.maxInitCodeByteSize) then
    Except.error ValidationError.TransactionSizeTooHigh
  else if st.blockGasLimit < req.gas_limit then
    Except.error ValidationError.GasLimitTooHigh
  else if !(req.validate_tx_size_limit st.maxTxInputBytes) then
    Except.error ValidationError.TransactionSizeTooHigh
  else if !(req.validate_max_priority_fee) then
    Except.error ValidationError.MaxPriorityFeePerGasTooHigh
  else
    match calculate_max_basefee st.basefee (req.slot - st.slot) with
    | none => Except.error ValidationError.MaxBaseFeeCalcOverflow
    | some maxBasefee =>
      if !(req.validate_basefee maxBasefee) then
        Except.error (ValidationError.BaseFeeTooLow maxBasefee)
      else
        match req.validate_min_priority_fee st.pricer (preconfirmed_gas st req.slot)
            st.minInclusionProfit maxBasefee with
        | Except.error (PricingError.TipTooLow tip minPriorityFee) =>
          Except.error (ValidationError.MaxPriorityFeePerGasTooLow tip minPriorityFee)
        | Except.error other => Except.error (ValidationError.Pricing other)
        | Except.ok _ =>
          if req.slot < st.slot then
            Except.error (ValidationError.SlotTooLow st.slot)
          else
            verify_tx_loop st req.slot (req.slot - st.slot) req.txs st.accountStates [] []

theorem validate_transaction_error_shape (a : AccountStateM) (tx : ModelTx)
    (e : ValidationError) (h : validate_transaction a tx = Except.error e) :
    e = ValidationError.NonceTooLow a.transactionCount tx.nonce ∨
    e = ValidationError.NonceTooHigh a.transactionCount tx.nonce ∨
    e = ValidationError.InsufficientBalance ∨
    e = ValidationError.AccountHasCode := by
  unfold validate_transaction at h
  split_ifs at h <;> simp_all

theorem blob_fee_checks_error_shape (st : ExecutionStateM) (sd : Nat)
    (e4 : Eip4844DataM) (e : ValidationError)
    (h : blob_fee_checks st sd e4 = Except.error e) :
    e = ValidationError.MaxBaseFeeCalcOverflow ∨
    (∃ v, e = ValidationError.BlobBaseFeeTooLow v) ∨
    e = ValidationError.BlobValidation := by
  unfold blob_fee_checks at h
  cases hc : calculate_max_basefee st.blobBasefee sd with
  | none =>
    rw [hc] at h
    simp only [Except.error.injEq] at h
    subst h
    left
    rfl
  | some maxBlob =>
    rw [hc] at h
    simp only [] at h
    by_cases h1 : e4.maxFeePerBlobGas < maxBlob
    · rw [if_pos h1] at h
      simp only [Except.error.injEq] at h
      subst h
      right; left
      exact ⟨_, rfl⟩
    · rw [if_neg h1] at h
      by_cases h2 : e4.blobValid = true
      · rw [if_pos h2] at h
        simp at h
      · rw [if_neg h2] at h
        simp only [Except.error.injEq] at h
        subst h
        right; right
        rfl

theorem blob_checks_error_shape (st : ExecutionStateM) (ts sd : Nat) (tx : ModelTx)
    (e : ValidationError) (h : blob_checks st ts sd tx = Except.error e) :
    e = ValidationError.Eip4844Limit ∨
    e = ValidationError.MaxBaseFeeCalcOverflow ∨
    (∃ v, e = ValidationError.BlobBaseFeeTooLow v) ∨
    e = ValidationError.BlobValidation := by
  unfold blob_checks at h
  cases he4 : tx.eip4844 with
  | none => rw [he4] at h; simp at h
  | some e4 =>
    rw [he4] at h
    simp only [] at h
    by_cases hws : e4.withSidecar = true
    · rw [if_pos hws] at h
      cases hgt : get_block_template st ts with
      | none =>
        rw [hgt] at h
        simp only [] at h
        rcases blob_fee_checks_error_shape _ _ _ _ h with h2 | h2 | h2 <;> tauto
      | some t =>
        rw [hgt] at h
        simp only [] at h
        by_cases hbc : MAX_BLOBS_PER_BLOCK ≤ t.blob_count
        · rw [if_pos hbc] at h
          simp only [Except.error.injEq] at h
          subst h
          left
          rfl
        · rw [if_neg hbc] at h
          rcases blob_fee_checks_error_shape _ _ _ _ h with h2 | h2 | h2 <;> tauto
    · rw [if_neg hws] at h
      simp at h

theorem verify_tx_step_error_cases (st : ExecutionStateM) (ts sd : Nat) (tx : ModelTx)
    (cache : List (Nat × AccountStateM)) (nm bm : List (Nat × Nat))
    (e : ValidationError)
    (h : verify_tx_step st ts sd tx cache nm bm = Except.error e) :
    (∀ v, e = ValidationError.SlotTooLow v → ts < v) ∧
    (∀ a b, e ≠ ValidationError.MaxCommittedGasReachedForSlot a b) := by
  unfold verify_tx_step at h
  by_cases hlt : ts < (compute_diffs st.blockTemplates (tx.recoveredSigner.getD 0)).2.2
  · rw [if_pos hlt] at h
    simp only [Except.error.injEq] at h
    subst h
    exact ⟨(fun v hv => by cases hv; exact hlt), (fun a b hne => by cases hne)⟩
  · rw [if_neg hlt] at h
    cases hla : lookup_account cache st.fetchAccount (tx.recoveredSigner.getD 0) with
    | none =>
      rw [hla] at h
      simp only [Except.error.injEq] at h
      subst h
      exact ⟨(fun v hv => by cases hv), (fun a b hne => by cases hne)⟩
    | some p =>
      obtain ⟨accountState, cache1⟩ := p
      rw [hla] at h
      simp only [] at h
      cases hbc : blob_checks st ts sd tx with
      | error e2 =>
        rw [hbc] at h
        split at h
        · next e3 heq =>
          simp only [Except.error.injEq] at h
          subst h
          rcases validate_transaction_error_shape _ _ _ heq with h2 | h2 | h2 | h2 <;>
            subst h2 <;>
            exact ⟨(fun v hv => by cases hv), (fun a b hne => by cases hne)⟩
        · simp only [Except.error.injEq] at h
          subst h
          rcases blob_checks_error_shape _ _ _ _ _ hbc with h2 | h2 | h2 | h2
          · subst h2
            exact ⟨(fun v hv => by cases hv), (fun a b hne => by cases hne)⟩
          · subst h2
            exact ⟨(fun v hv => by cases hv), (fun a b hne => by cases hne)⟩
          · obtain ⟨v2, h2⟩ := h2
            subst h2
            exact ⟨(fun v hv => by cases hv), (fun a b hne => by cases hne)⟩
          · subst h2
            exact ⟨(fun v hv => by cases hv), (fun a b hne => by cases hne)⟩
      | ok u =>
        rw [hbc] at h
        split at h
        · next e3 heq =>
          simp only [Except.error.injEq] at h
          subst h
          rcases validate_transaction_error_shape _ _ _ heq with h2 | h2 | h2 | h2 <;>
            subst h2 <;>
            exact ⟨(fun v hv => by cases hv), (fun a b hne => by cases hne)⟩
        · simp at h

theorem verify_tx_loop_error_cases (st : ExecutionStateM) (ts sd : Nat) :
    ∀ (txs : List ModelTx) (cache : List (Nat × AccountStateM))
      (nm bm : List (Nat × Nat)) (e : ValidationError),
      verify_tx_loop st ts sd txs cache nm bm = Except.error e →
      (∀ v, e = ValidationError.SlotTooLow v → ts < v) ∧
      (∀ a b, e ≠ ValidationError.MaxCommittedGasReachedForSlot a b) := by
  intro txs
  induction txs with
  | nil =>
    intro cache nm bm e h
    simp [verify_tx_loop] at h
  | cons tx rest ih =>
    intro cache nm bm e h
    rw [verify_tx_loop] at h
    split at h
    · next e2 heq =>
      simp only [Except.error.injEq] at h
      subst h
      exact verify_tx_step_error_cases st ts sd tx cache nm bm e2 heq
    · next p heq =>
      exact ih _ _ _ e h

/-- C2 amended: with signer recovery and the chain-id check passing, the
committed-gas check of `verify_el_tx` fires — with error
`MaxCommittedGasReachedForSlot` — exactly when the gas already committed for
the target slot plus the request gas reaches **or exceeds** the per-slot cap
(`>=` in the source); a request bringing the total exactly to the cap is
rejected. -/
theorem c2_committed_gas_check (st : ExecutionStateM) (req : InclusionRequestM)
    (h1 : req.txs.all (fun tx => tx.recoveredSigner.isSome) = true)
    (h2 : req.validate_chain_id st.chainId = true) :
    verify_el_tx st req =
        Except.error (ValidationError.MaxCommittedGasReachedForSlot
          st.slot st.maxCommittedGasPerSlot) ↔
      st.maxCommittedGasPerSlot ≤ preconfirmed_gas st req.slot + req.gas_limit := by
  unfold verify_el_tx
  have hc1 : ¬((!(req.txs.all (fun tx => tx.recoveredSigner.isSome))) = true) := by
    rw [h1]; simp
  have hc2 : ¬((!(req.validate_chain_id st.chainId)) = true) := by
    rw [h2]; simp
  rw [if_neg hc1, if_neg hc2]
  by_cases h3 : st.maxCommittedGasPerSlot ≤ preconfirmed_gas st req.slot + req.gas_limit
  · rw [if_pos h3]
    exact ⟨fun _ => h3, fun _ => rfl⟩
  · rw [if_neg h3]
    constructor
    · intro h
      exfalso
      repeat' split at h
      all_goals
        first
          | simp at h
          | exact (verify_tx_loop_error_cases st req.slot (req.slot - st.slot)
              req.txs st.accountStates [] [] _ h).2 _ _ rfl
    · intro hc
      exact absurd hc h3

def c2_state : ExecutionStateM :=
  { slot := 10, chainId := 1, basefee := 100, blobBasefee := 1,
    maxCommittedGasPerSlot := 21000, minInclusionProfit := 0,
    blockGasLimit := 30000000, maxTxInputBytes := 131072,
    maxInitCodeByteSize := 49152, pricingBlockGasLimit := 30000000,
    blockTemplates := [],
    accountStates := [(7, ⟨0, 1000000000000000000, false⟩)],
    fetchAccount := fun _ => none,
    inclusionTipWei := fun _ _ => 0 }

def c2_tx : ModelTx :=
  { recoveredSigner := some 7, chainId := some 1, nonce := 0, gasLimit := 21000,
    maxFeePerGas := 1000, maxPriorityFeePerGas := some 50, value := 0,
    size := 100, isCreate := false, inputLen := 0, eip4844 := none }

def c2_req : InclusionRequestM := ⟨10, [c2_tx]⟩

/-- C2 counterexample: the claim says a request bringing the committed total
exactly to the cap is not rejected by the committed-gas check; with the cap
at 21000 and a single 21000-gas transaction (no prior commitments) the code
does reject it. -/
theorem c2_committed_gas_counterexample :
    ¬ (∀ (st : ExecutionStateM) (req : InclusionRequestM),
        preconfirmed_gas st req.slot + req.gas_limit = st.maxCommittedGasPerSlot →
        verify_el_tx st req ≠
          Except.error (ValidationError.MaxCommittedGasReachedForSlot
            st.slot st.maxCommittedGasPerSlot)) := by
  intro h
  exact h c2_state c2_req rfl rfl

/-- Witness for C2 amended at the exactly-at-cap request. -/
theorem c2_committed_gas_check_witness :
    verify_el_tx c2_state c2_req =
        Except.error (ValidationError.MaxCommittedGasReachedForSlot
          c2_state.slot c2_state.maxCommittedGasPerSlot) ↔
      c2_state.maxCommittedGasPerSlot ≤
        preconfirmed_gas c2_state c2_req.slot + c2_req.gas_limit :=
  c2_committed_gas_check c2_state c2_req (by rfl) (by rfl)

/-- C3 amended: once a request reaches the target-slot check (all earlier
checks pass), `verify_el_tx` rejects with `SlotTooLow(current_slot)` exactly
when the target slot is **strictly below** the current slot (`<` in the
source); a request targeting the current slot itself passes this check. -/
theorem c3_slot_check (st : ExecutionStateM) (req : InclusionRequestM) (mbf : Nat)
    (h1 : req.txs.all (fun tx => tx.recoveredSigner.isSome) = true)
    (h2 : req.validate_chain_id st.chainId = true)
    (h3 : preconfirmed_gas st req.slot + req.gas_limit < st.maxCommittedGasPerSlot)
    (h4 : req.validate_init_code_limit st.maxInitCodeByteSize = true)
    (h5 : req.gas_limit ≤ st.blockGasLimit)
    (h6 : req.validate_tx_size_limit st.maxTxInputBytes = true)
    (h7 : req.validate_max_priority_fee = true)
    (h8 : calculate_max_basefee st.basefee (req.slot - st.slot) = some mbf)
    (h9 : req.validate_basefee mbf = true)
    (h10 : req.validate_min_priority_fee st.pricer (preconfirmed_gas st req.slot)
        st.minInclusionProfit mbf = Except.ok true) :
    verify_el_tx st req = Except.error (ValidationError.SlotTooLow st.slot) ↔
      req.slot < st.slot := by
  unfold verify_el_tx
  have hc1 : ¬((!(req.txs.all (fun tx => tx.recoveredSigner.isSome))) = true) := by
    rw [h1]; simp
  have hc2 : ¬((!(req.validate_chain_id st.chainId)) = true) := by
    rw [h2]; simp
  have hc3 : ¬(st.maxCommittedGasPerSlot ≤ preconfirmed_gas st req.slot + req.gas_limit) := by
    omega
  have hc4 : ¬((!(req.validate_init_code_limit st.maxInitCodeByteSize)) = true) := by
    rw [h4]; simp
  have hc5 : ¬(st.blockGasLimit < req.gas_limit) := by omega
  have hc6 : ¬((!(req.validate_tx_size_limit st.maxTxInputBytes)) = true) := by
    rw [h6]; simp
  have hc7 : ¬((!(req.validate_max_priority_fee)) = true) := by
    rw [h7]; simp
  rw [if_neg hc1, if_neg hc2, if_neg hc3, if_neg hc4, if_neg hc5, if_neg hc6,
    if_neg hc7, h8]
  simp only []
  have hc9 : ¬((!(req.validate_basefee mbf)) = true) := by
    rw [h9]; simp
  rw [if_neg hc9, h10]
  simp only []
  constructor
  · intro h
    by_cases hlt : req.slot < st.slot
    · exact hlt
    · rw [if_neg hlt] at h
      exact (verify_tx_loop_error_cases st req.slot (req.slot - st.slot)
        req.txs st.accountStates [] [] _ h).1 st.slot rfl
  · intro hlt
    rw [if_pos hlt]

def c3_state : ExecutionStateM :=
  { slot := 10, chainId := 1, basefee := 100, blobBasefee := 1,
    maxCommittedGasPerSlot := 1000000000, minInclusionProfit := 0,
    blockGasLimit := 30000000, maxTxInputBytes := 131072,
    maxInitCodeByteSize := 49152, pricingBlockGasLimit := 30000000,
    blockTemplates := [],
    accountStates := [(7, ⟨0, 1000000000000000000, false⟩)],
    fetchAccount := fun _ => none,
    inclusionTipWei := fun _ _ => 0 }

def c3_req : InclusionRequestM := ⟨10, [c2_tx]⟩

def c3_req_low : InclusionRequestM := ⟨9, [c2_tx]⟩

/-- C3 counterexample: a fully valid request targeting a slot equal to the
current slot is accepted by `verify_el_tx` (returns Ok), so the claim that
every request with target slot not strictly above the current slot is
rejected with a slot-too-low error is false. -/
theorem c3_slot_counterexample :
    ¬ (∀ (st : ExecutionStateM) (req : InclusionRequestM),
        req.slot ≤ st.slot →
        ∃ v, verify_el_tx st req = Except.error (ValidationError.SlotTooLow v)) := by
  intro h
  obtain ⟨v, hv⟩ := h c3_state c3_req (le_refl 10)
  rw [show verify_el_tx c3_state c3_req = Except.ok () from rfl] at hv
  cases hv

/-- Witness for C3 amended at a request one slot below the head. -/
theorem c3_slot_check_witness :
    verify_el_tx c3_state c3_req_low =
        Except.error (ValidationError.SlotTooLow c3_state.slot) ↔
      c3_req_low.slot < c3_state.slot :=
  c3_slot_check c3_state c3_req_low 100 (by rfl) (by rfl) (by decide) (by rfl)
    (by decide) (by rfl) (by rfl) (by rfl) (by rfl) (by rfl)
